import Mathlib

/-!
Verification development for the Markdown Asset Pipeline of the leaf-api
repository (cmd/fix_images/main.go: the fix_images command, the
ArticleExporter and the ImageProcessor, package markdown).

Go strings are embedded as lists of characters.  Go byte slices are
embedded as lists of naturals.  Network, filesystem, archive-write and
clock effects are embedded as an explicit environment record passed to
every function that the source lets perform such effects; each such
function additionally returns the list of URLs it attempted, so that
claims about the number of retrieval attempts can be stated.
-/

set_option linter.unusedVariables false
set_option maxRecDepth 100000

namespace Leaf

/-- Decidable equality of fallible results, needed to evaluate the
theorems about concrete inputs. -/
instance {ε α : Type} [DecidableEq ε] [DecidableEq α] : DecidableEq (Except ε α) := fun a b =>
  match a, b with
  | .error x, .error y =>
    if h : x = y then isTrue (h ▸ rfl) else isFalse (fun hc => h (Except.error.inj hc))
  | .ok x, .ok y =>
    if h : x = y then isTrue (h ▸ rfl) else isFalse (fun hc => h (Except.ok.inj hc))
  | .error _, .ok _ => isFalse (fun hc => Except.noConfusion hc)
  | .ok _, .error _ => isFalse (fun hc => Except.noConfusion hc)

/-- Character-list representation of a Go string. -/
abbrev Chars := List Char

/-- View a Lean string literal as a character list. -/
def strChars (s : String) : Chars := s.data

/-- strings.HasPrefix s pat (argument order as in Go). -/
def startsWith (s pat : Chars) : Bool := pat.isPrefixOf s

/-- strings.Contains s pat: pat occurs as a contiguous run of s
(this is also the findSubstring helper of cmd/fix_images/main.go);
stated for any list of elements with decidable equality so that it also
serves byte payloads. -/
def containsSub {α : Type} [DecidableEq α] : List α → List α → Bool
  | [], pat => pat.isEmpty
  | c :: t, pat => pat.isPrefixOf (c :: t) || containsSub t pat

/-- strings.Split s sep for a one-character separator: always returns a
non-empty list of fields. -/
def splitOnChar (sep : Char) : Chars → List Chars
  | [] => [[]]
  | c :: t =>
    if c = sep then [] :: splitOnChar sep t
    else
      match splitOnChar sep t with
      | [] => [[c]]
      | h :: r => (c :: h) :: r

/-- Fuel-driven worker for replaceAllSub; one unit of fuel is spent per
step and each step consumes at least one character, so fuel equal to the
length of the string is always enough. -/
def replaceAllAux (pat repl : Chars) : Nat → Chars → Chars
  | 0, s => s
  | fuel + 1, s =>
    if pat.isPrefixOf s && !pat.isEmpty then
      repl ++ replaceAllAux pat repl fuel (s.drop pat.length)
    else
      match s with
      | [] => []
      | c :: t => c :: replaceAllAux pat repl fuel t

/-- strings.ReplaceAll s pat repl: replace every non-overlapping
occurrence of pat, scanning left to right. -/
def replaceAllSub (s pat repl : Chars) : Chars :=
  if pat.isEmpty then s else replaceAllAux pat repl s.length s

/-- Match the image-link pattern of the Go regular expression
with exclamation mark, bracketed alt text free of closing brackets, and
parenthesised non-empty target free of closing parentheses, at the start
of cs; on success return the alt text, the target and the remainder of
the input after the closing parenthesis.  The alt run and the target run
are forced (their character classes exclude their own terminators), so
this deterministic matcher agrees with the regexp engine. -/
def matchImageAt (cs : Chars) : Option (Chars × Chars × Chars) :=
  match cs with
  | '!' :: '[' :: r1 =>
    match r1.span (fun c => c != ']') with
    | (alt, ']' :: '(' :: r2) =>
      match r2.span (fun c => c != ')') with
      | ([], _) => none
      | (url, ')' :: rest) => some (alt, url, rest)
      | _ => none
    | _ => none
  | _ => none

/-- Fuel-driven worker for scanMatches: at each position try to match an
image link; on success record (alt, target) and continue after the match,
otherwise advance one character.  This is FindAllStringSubmatch of the
image regex (leftmost matches, non-overlapping). -/
def scanMatchesAux : Nat → Chars → List (Chars × Chars)
  | 0, _ => []
  | fuel + 1, cs =>
    match matchImageAt cs with
    | some (alt, url, rest) => (alt, url) :: scanMatchesAux fuel rest
    | none =>
      match cs with
      | [] => []
      | _ :: t => scanMatchesAux fuel t

/-- All image-link matches of a body, in scan order. -/
def scanMatches (s : Chars) : List (Chars × Chars) := scanMatchesAux s.length s

/-- Fuel-driven worker for replaceImageLinks. -/
def replaceImageLinksAux (url repl : Chars) : Nat → Chars → Chars
  | 0, s => s
  | fuel + 1, s =>
    match matchImageAt s with
    | some (_, u, rest) =>
      if u = url then repl ++ replaceImageLinksAux url repl fuel rest
      else
        match s with
        | [] => []
        | c :: t => c :: replaceImageLinksAux url repl fuel t
    | none =>
      match s with
      | [] => []
      | c :: t => c :: replaceImageLinksAux url repl fuel t

/-- ReplaceAllString of the per-URL regex built in extractImages (image
link whose target is exactly the quoted url): every image link whose
target equals url is replaced by repl.  Faithful to the regexp for the
targets produced by the scanner, which never contain a closing
parenthesis. -/
def replaceImageLinks (url repl s : Chars) : Chars :=
  replaceImageLinksAux url repl s.length s

/-- ImageInfo of pkg/markdown (exporter.go). -/
structure ImageInfo where
  alt : Chars
  originalURL : Chars
  typ : Chars
  placeholder : Chars
deriving DecidableEq, Repr

/-- Decimal digits of a natural, as characters. -/
def natChars (n : Nat) : Chars := (Nat.repr n).data

/-- The placeholder token created for the match at index i. -/
def placeholderFor (i : Nat) : Chars :=
  strChars "__IMG_PLACEHOLDER_" ++ natChars i ++ strChars "__"

/-- An image link rendered back to text. -/
def imgPattern (alt target : Chars) : Chars :=
  strChars "![" ++ alt ++ strChars "](" ++ target ++ strChars ")"

/-- The body of the loop of ArticleExporter.extractImages: walk the match
list with the running match index, the markdown being rewritten, the set
of already-seen URLs and the ImageInfo list built so far. -/
def extractImagesLoop :
    List (Chars × Chars) → Nat → Chars × List Chars × List ImageInfo →
    Chars × List Chars × List ImageInfo
  | [], _, st => st
  | (alt, url) :: ms, i, (md, seen, infos) =>
    if startsWith url (strChars "./") || startsWith url (strChars "../") then
      extractImagesLoop ms (i + 1) (md, seen, infos)
    else
      let typ :=
        if startsWith url (strChars "/uploads/") then strChars "local"
        else if startsWith url (strChars "http://") || startsWith url (strChars "https://") then
          strChars "remote"
        else []
      if typ.isEmpty then extractImagesLoop ms (i + 1) (md, seen, infos)
      else if url ∈ seen then extractImagesLoop ms (i + 1) (md, seen, infos)
      else
        extractImagesLoop ms (i + 1)
          (replaceImageLinks url (placeholderFor i) md, url :: seen,
            infos ++ [⟨alt, url, typ, placeholderFor i⟩])

/-- ArticleExporter.extractImages: return the body with every eligible
image link replaced by its placeholder, and the ImageInfo list (one entry
per distinct eligible target, in first-occurrence order). -/
def extractImages (markdown : Chars) : Chars × List ImageInfo :=
  let r := extractImagesLoop (scanMatches markdown) 0 (markdown, [], [])
  (r.1, r.2.2)

/-- Outcome of one HTTP request: request construction failed before any
network traffic (http.NewRequest error), the round trip failed
(http.Client.Do error), or a response with a status, a Content-Type
header and a body arrived. -/
inductive HttpResult where
  | reqErr (msg : Chars)
  | transportErr (msg : Chars)
  | ok (status : Nat) (contentType : Chars) (body : List Nat)
deriving DecidableEq, Repr

/-- Effect environment of the export path: the HTTP stack, the local
filesystem, whether writing a given archive entry fails
(zip.Writer.Create / Write), the clock (time.Now().UnixNano()), and the
recursion budget used to run the self-recursive downloadImage. -/
structure Env where
  httpDo : Chars → HttpResult
  readFile : Chars → Except Chars (List Nat)
  zipFail : Chars → Bool
  nowNano : Nat
  fuel : Nat

/-- The host test guarding both proxy fallbacks in the source:
strings.Contains(url, cdn.nlark.com) or strings.Contains(url, yuque.com). -/
def hostileHost (url : Chars) : Bool :=
  containsSub url (strChars "cdn.nlark.com") || containsSub url (strChars "yuque.com")

/-- The URL-rewriting proxy base prepended to the original URL. -/
def proxyBase : Chars := strChars "https://images.weserv.nl/?url="

/-- ArticleExporter.getExtensionFromContentType. -/
def getExtensionFromContentType (ct : Chars) : Chars :=
  if containsSub ct (strChars "image/jpeg") then strChars ".jpg"
  else if containsSub ct (strChars "image/png") then strChars ".png"
  else if containsSub ct (strChars "image/gif") then strChars ".gif"
  else if containsSub ct (strChars "image/webp") then strChars ".webp"
  else strChars ".jpg"

/-- ArticleExporter.extractFilename: last path segment of the URL with
query parameters stripped; when that segment has no dot, a
timestamp-based name with a content-type derived extension. -/
def extractFilename (env : Env) (url ct : Chars) : Chars :=
  let filename := (splitOnChar '/' url).getLastD []
  let filename := (splitOnChar '?' filename).headD []
  if containsSub filename (strChars ".") then filename
  else natChars env.nowNano ++ getExtensionFromContentType ct

/-- ArticleExporter.downloadImage, with the attempted URLs recorded in
order.  On a transport error for a hostile host the source calls itself
on proxyBase ++ url; the fuel argument bounds that self-recursion (the
source has no such bound — its recursion depth is the call stack).  A
request-construction error returns immediately without any attempt, a
non-success status returns an error without consulting the proxy. -/
def downloadImage (env : Env) : Nat → Chars → Except Chars (List Nat × Chars) × List Chars
  | 0, _ => (.error (strChars "recursion budget exhausted"), [])
  | fuel + 1, url =>
    match env.httpDo url with
    | .reqErr msg => (.error msg, [])
    | .transportErr msg =>
      if hostileHost url then
        let r := downloadImage env fuel (proxyBase ++ url)
        (r.1, url :: r.2)
      else (.error msg, [url])
    | .ok status ct body =>
      if status ≠ 200 then (.error (strChars "download failed: HTTP status"), [url])
      else (.ok (body, extractFilename env url ct), [url])

/-- filepath.Base for the slash-separated paths the exporter feeds it
(no trailing slash). -/
def basename (p : Chars) : Chars := (splitOnChar '/' p).getLastD []

/-- ArticleExporter.readLocalImage: read dot ++ urlPath from disk and
pair the bytes with the base name of the path. -/
def readLocalImage (env : Env) (urlPath : Chars) : Except Chars (List Nat × Chars) :=
  match env.readFile ('.' :: urlPath) with
  | .error e => .error (strChars "read local image failed: " ++ e)
  | .ok data => .ok (data, basename urlPath)

/-- Modelled from the spec: po.Article (internal/model/po) is not under
src/.  Section 3 and section 6 of the spec describe the document
snapshot as identifier, title, body text, author/category/tag display
names, timestamps and a status code, the timestamps being consumed only
in display form inside the generated front matter. -/
structure Article where
  id : Nat
  title : Chars
  contentMarkdown : Chars
  authorNickname : Chars
  categoryName : Chars
  tagNames : List Chars
  createdAtText : Chars
  updatedAtText : Chars
  status : Int
deriving DecidableEq, Repr

/-- ArticleExporter.escapeYAMLValue: quote the value when it contains a
YAML-significant character and escape interior double quotes. -/
def escapeYAMLValue (v : Chars) : Chars :=
  if v.any (fun c => c ∈ [':', '#', '"', '\'']) then
    ['"'] ++ replaceAllSub v (strChars "\"") (strChars "\\\"") ++ ['"']
  else v

/-- The tags line of the front matter (only emitted for a non-empty tag
list). -/
def tagListChars (tags : List Chars) : Chars :=
  match tags with
  | [] => []
  | t :: ts =>
    strChars "tags: [" ++
      (ts.foldl (fun acc tg => acc ++ strChars ", " ++ escapeYAMLValue tg) (escapeYAMLValue t)) ++
      strChars "]\n"

/-- ArticleExporter.generateMarkdownWithFrontMatter. -/
def generateMarkdownWithFrontMatter (a : Article) : Chars :=
  let fm :=
    strChars "---\ntitle: " ++ escapeYAMLValue a.title ++
    strChars "\nauthor: " ++ escapeYAMLValue a.authorNickname ++
    strChars "\ncategory: " ++ escapeYAMLValue a.categoryName ++
    strChars "\ncreated_at: " ++ a.createdAtText ++
    strChars "\nupdated_at: " ++ a.updatedAtText ++
    strChars "\nstatus: " ++ (toString a.status).data ++
    strChars "\n"
  let fm := fm ++ (if a.tagNames.isEmpty then [] else tagListChars a.tagNames)
  fm ++ strChars "---\n\n" ++ a.contentMarkdown

/-- ArticleExporter.generateFilename: id-sanitizedTitle.md with spaces
and slashes turned into hyphens, every other non-alphanumeric
non-hyphen character removed and the result cut at 50 characters. -/
def generateFilename (a : Article) : Chars :=
  let t := replaceAllSub a.title (strChars " ") (strChars "-")
  let t := replaceAllSub t (strChars "/") (strChars "-")
  let t := replaceAllSub t (strChars "\\") (strChars "-")
  let t := t.filter (fun c =>
    (decide ('a' ≤ c) && decide (c ≤ 'z')) || (decide ('A' ≤ c) && decide (c ≤ 'Z')) ||
    (decide ('0' ≤ c) && decide (c ≤ '9')) || decide (c = '-'))
  let t := t.take 50
  natChars a.id ++ strChars "-" ++ t ++ strChars ".md"

/-- One archive entry: name and payload bytes. -/
structure ZipEntry where
  name : Chars
  data : List Nat
deriving DecidableEq, Repr

/-- Bytes of a text payload (the markdown entries are ASCII in every
input considered here, so code points serve as bytes). -/
def charsBytes (s : Chars) : List Nat := s.map (fun c => c.toNat)

/-- Association-list lookup for the downloadedImages map. -/
def lookupDl (dl : List (Chars × Chars)) (u : Chars) : Option Chars :=
  match dl with
  | [] => none
  | (k, v) :: t => if k = u then some v else lookupDl t u

/-- Running state of one ExportToZip call: the archive entries written so
far, the downloadedImages map (original URL to filename, populated only
after a successful fetch and a successful archive write), and the list of
URLs for which a fetch operation (downloadImage or readLocalImage) has
been invoked. -/
structure ExportSt where
  entries : List ZipEntry
  downloaded : List (Chars × Chars)
  fetchTrace : List Chars
deriving Repr

/-- The per-image body of the loop in ExportToZip (source lines 146-185):
consult the dedup map first; otherwise fetch by type, record the fetch,
and on failure substitute the original link back, on success write the
asset entry (skipping map update and substitution when the archive write
fails) and substitute the relative reference. -/
def processImageInfo (env : Env) (st : ExportSt) (md : Chars) (info : ImageInfo) :
    ExportSt × Chars :=
  match lookupDl st.downloaded info.originalURL with
  | some fn =>
    (st, replaceAllSub md info.placeholder (imgPattern info.alt (strChars "./images/" ++ fn)))
  | none =>
    let fetched :=
      if info.typ = strChars "local" then readLocalImage env info.originalURL
      else (downloadImage env env.fuel info.originalURL).1
    let st := { st with fetchTrace := st.fetchTrace ++ [info.originalURL] }
    match fetched with
    | .error _ =>
      (st, replaceAllSub md info.placeholder (imgPattern info.alt info.originalURL))
    | .ok (data, fn) =>
      if env.zipFail (strChars "images/" ++ fn) then (st, md)
      else
        ({ st with
            entries := st.entries ++ [⟨strChars "images/" ++ fn, data⟩],
            downloaded := st.downloaded ++ [(info.originalURL, fn)] },
          replaceAllSub md info.placeholder (imgPattern info.alt (strChars "./images/" ++ fn)))

/-- Fold of processImageInfo over the ImageInfo list of one document. -/
def processInfos (env : Env) : List ImageInfo → ExportSt × Chars → ExportSt × Chars
  | [], stmd => stmd
  | info :: rest, (st, md) =>
    processInfos env rest (processImageInfo env st md info)

/-- One document of ExportToZip: front matter, scan, per-image loop, then
the markdown entry itself (skipped when its archive write fails). -/
def processArticle (env : Env) (st : ExportSt) (a : Article) : ExportSt :=
  let mdc := generateMarkdownWithFrontMatter a
  let scanned := extractImages mdc
  let r := processInfos env scanned.2 (st, scanned.1)
  let fname := generateFilename a
  if env.zipFail fname then r.1
  else { r.1 with entries := r.1.entries ++ [⟨fname, charsBytes r.2⟩] }

/-- ArticleExporter.ExportToZip over a list of documents.  Closing the
in-memory zip writer is the final step of the source; its success hands
back exactly the accumulated entries, which this state carries. -/
def ExportToZip (env : Env) (articles : List Article) : ExportSt :=
  articles.foldl (processArticle env) ⟨[], [], []⟩

/-- Effect environment of the ingestion path: the HTTP stack, the
durable-storage upload, the date path (time.Now().Format of
year/month/day) and the uuid stream indexed by how many uuids the call
has drawn so far.

uploadBytes is modelled from the spec: pkg/oss is not under src/; the
spec (section 4.6) says a success relocates the asset to durable storage
under the date-partitioned path and rewrites to the durable-storage URL. -/
structure NormEnv where
  httpDo : Chars → HttpResult
  uploadBytes : List Nat → Chars → Except Chars Chars
  datePath : Chars
  uuid : Nat → Chars

/-- ImageProcessor.tryDownload: one request; a request-construction
failure, a transport failure and a non-success status are all returned as
errors, a success returns the bytes and the Content-Type. -/
def tryDownload (env : NormEnv) (url : Chars) : Except Chars (List Nat × Chars) :=
  match env.httpDo url with
  | .reqErr m => .error (strChars "request construction failed: " ++ m)
  | .transportErr m => .error (strChars "download failed: " ++ m)
  | .ok status ct body =>
    if status ≠ 200 then .error (strChars "HTTP status code error")
    else .ok (body, ct)

/-- filepath.Ext: the suffix of the final slash-separated element
starting at its final dot, empty when that element has no dot. -/
def filepathExt (s : Chars) : Chars :=
  let rev := s.reverse
  let pre := rev.takeWhile (fun c => c != '.' && c != '/')
  match rev.drop pre.length with
  | '.' :: _ => '.' :: pre.reverse
  | _ => []

/-- getExtByContentType of pkg/markdown (the normalizer's variant, with
lower-casing and svg). -/
def getExtByContentType (ct : Chars) : Chars :=
  let c := ct.map Char.toLower
  if containsSub c (strChars "jpeg") || containsSub c (strChars "jpg") then strChars ".jpg"
  else if containsSub c (strChars "png") then strChars ".png"
  else if containsSub c (strChars "gif") then strChars ".gif"
  else if containsSub c (strChars "webp") then strChars ".webp"
  else if containsSub c (strChars "svg") then strChars ".svg"
  else strChars ".jpg"

/-- Tail of ImageProcessor.downloadAndUploadImage after a successful
download: extension from the URL or the content type, date-partitioned
uuid filename (drawing the next uuid), upload.  Returns the result, the
next uuid index and the attempted URLs. -/
def finishUpload (env : NormEnv) (uidx : Nat) (url : Chars) (data : List Nat) (ct : Chars)
    (attempts : List Chars) : Except Chars Chars × Nat × List Chars :=
  let ext := filepathExt url
  let ext := if ext.isEmpty || decide (ext.length > 5) then getExtByContentType ct else ext
  let filename := strChars "articles/" ++ env.datePath ++ strChars "/" ++ env.uuid uidx ++ ext
  match env.uploadBytes data filename with
  | .error e => (.error (strChars "upload failed: " ++ e), uidx + 1, attempts)
  | .ok u2 => (.ok u2, uidx + 1, attempts)

/-- ImageProcessor.downloadAndUploadImage: primary tryDownload, a single
proxy retry when it failed and the host is hostile, then upload. -/
def downloadAndUploadImage (env : NormEnv) (uidx : Nat) (url : Chars) :
    Except Chars Chars × Nat × List Chars :=
  match tryDownload env url with
  | .error e =>
    if hostileHost url then
      match tryDownload env (proxyBase ++ url) with
      | .error e2 =>
        (.error (strChars "proxy download also failed: " ++ e2), uidx, [url, proxyBase ++ url])
      | .ok (data, ct) => finishUpload env uidx url data ct [url, proxyBase ++ url]
    else (.error e, uidx, [url])
  | .ok (data, ct) => finishUpload env uidx url data ct [url]

/-- The skip test of ImageProcessor.ProcessMarkdownImages for links that
already point at durable or local storage. -/
def normSkip (url : Chars) : Bool :=
  startsWith url (strChars "/uploads/") || containsSub url (strChars "oss-cn-") ||
    containsSub url (strChars "aliyuncs.com")

/-- The per-image loop of ProcessMarkdownImages: skip normalized links;
otherwise fetch-and-upload, leaving the link untouched on failure and
replacing the exact original link text on success.  The state carries the
content, the uuid index and the list of URLs for which
downloadAndUploadImage was invoked. -/
def normLoop (env : NormEnv) :
    List (Chars × Chars) → Chars × Nat × List Chars → Chars × Nat × List Chars
  | [], st => st
  | (alt, url) :: ms, (content, uidx, trace) =>
    if normSkip url then normLoop env ms (content, uidx, trace)
    else
      let r := downloadAndUploadImage env uidx url
      let trace := trace ++ [url]
      match r.1 with
      | .error _ => normLoop env ms (content, r.2.1, trace)
      | .ok newURL =>
        normLoop env ms
          (replaceAllSub content (imgPattern alt url) (imgPattern alt newURL), r.2.1, trace)

/-- Result of one ProcessMarkdownImages call: the rewritten content, the
error slot of the Go return (content, error), and the fetch trace. -/
structure NormResult where
  content : Chars
  err : Option Chars
  fetchTrace : List Chars
deriving Repr

/-- ImageProcessor.ProcessMarkdownImages: scan once, return unchanged on
no matches, otherwise run the per-image loop; both returns of the source
carry a nil error. -/
def ProcessMarkdownImages (env : NormEnv) (content : Chars) : NormResult :=
  let found := scanMatches content
  if found.isEmpty then ⟨content, none, []⟩
  else
    let r := normLoop env found (content, 0, [])
    ⟨r.1, none, r.2.2⟩

/-! ## Concrete fixtures used by several theorems -/

/-- A one-image article; the body carries a single plain remote link. -/
def artRemote : Article :=
  { id := 1, title := strChars "t", contentMarkdown := strChars "![a](https://h/x.png)",
    authorNickname := strChars "n", categoryName := strChars "c", tagNames := [],
    createdAtText := strChars "2025-01-01 00:00:00",
    updatedAtText := strChars "2025-01-01 00:00:00", status := 1 }

/-- The remote URL of artRemote. -/
def urlH : Chars := strChars "https://h/x.png"

/-- An environment whose every HTTP request fails at transport level and
whose archive writes always succeed. -/
def envT : Env :=
  { httpDo := fun _ => .transportErr (strChars "connection refused"),
    readFile := fun _ => .error [],
    zipFail := fun _ => false,
    nowNano := 0, fuel := 8 }

/-- An environment where fetching urlH succeeds and every archive write
succeeds. -/
def envOK : Env :=
  { httpDo := fun u =>
      if u = urlH then .ok 200 (strChars "image/png") [7] else .transportErr (strChars "e"),
    readFile := fun _ => .error [],
    zipFail := fun _ => false,
    nowNano := 0, fuel := 8 }

/-! ## Shared lemmas -/

/-- A hit in the downloadedImages map survives appending an entry. -/
theorem lookupDl_append (dl : List (Chars × Chars)) (kv : Chars × Chars) (u fn : Chars)
    (h : lookupDl dl u = some fn) : lookupDl (dl ++ [kv]) u = some fn := by
  induction dl with
  | nil => simp [lookupDl] at h
  | cons a t ih =>
    obtain ⟨k, v⟩ := a
    by_cases hk : k = u
    · simpa [lookupDl, hk] using h
    · simp only [List.cons_append, lookupDl, hk, if_false] at h ⊢
      exact ih h

/-- While the dedup map already holds u, one step of the per-image loop
neither fetches u again nor loses or changes its recorded filename. -/
theorem processImageInfo_preserves (env : Env) (st : ExportSt) (md : Chars)
    (info : ImageInfo) (u fn : Chars) (h : lookupDl st.downloaded u = some fn) :
    lookupDl (processImageInfo env st md info).1.downloaded u = some fn ∧
    (processImageInfo env st md info).1.fetchTrace.count u = st.fetchTrace.count u := by
  unfold processImageInfo
  cases hl : lookupDl st.downloaded info.originalURL with
  | some fn2 => exact ⟨h, rfl⟩
  | none =>
    have hne : u ≠ info.originalURL := by
      intro he
      rw [← he, h] at hl
      exact Option.noConfusion hl
    have h0 : List.count u [info.originalURL] = 0 :=
      List.count_eq_zero.mpr (by simp [hne])
    have hcount : ∀ tr : List Chars, (tr ++ [info.originalURL]).count u = tr.count u := by
      intro tr
      rw [List.count_append, h0, Nat.add_zero]
    cases hf : (if info.typ = strChars "local" then readLocalImage env info.originalURL
        else (downloadImage env env.fuel info.originalURL).1) with
    | error e => exact ⟨h, hcount _⟩
    | ok p =>
      obtain ⟨data, fn2⟩ := p
      dsimp only
      by_cases hz : env.zipFail (strChars "images/" ++ fn2)
      · rw [if_pos hz]
        exact ⟨h, hcount _⟩
      · rw [if_neg hz]
        exact ⟨lookupDl_append _ _ _ _ h, hcount _⟩

/-- The same preservation over the whole per-image loop of one document. -/
theorem processInfos_preserves (env : Env) (infos : List ImageInfo) (st : ExportSt)
    (md : Chars) (u fn : Chars) (h : lookupDl st.downloaded u = some fn) :
    lookupDl (processInfos env infos (st, md)).1.downloaded u = some fn ∧
    (processInfos env infos (st, md)).1.fetchTrace.count u = st.fetchTrace.count u := by
  induction infos generalizing st md with
  | nil => exact ⟨h, rfl⟩
  | cons info rest ih =>
    have hstep := processImageInfo_preserves env st md info u fn h
    have := ih (processImageInfo env st md info).1 (processImageInfo env st md info).2 hstep.1
    simpa [processInfos] using ⟨this.1, this.2.trans hstep.2⟩

/-- The same preservation over one whole document of the export. -/
theorem processArticle_preserves (env : Env) (st : ExportSt) (a : Article) (u fn : Chars)
    (h : lookupDl st.downloaded u = some fn) :
    lookupDl (processArticle env st a).downloaded u = some fn ∧
    (processArticle env st a).fetchTrace.count u = st.fetchTrace.count u := by
  unfold processArticle
  have hp := processInfos_preserves env (extractImages (generateMarkdownWithFrontMatter a)).2
    st (extractImages (generateMarkdownWithFrontMatter a)).1 u fn h
  by_cases hz : env.zipFail (generateFilename a) <;> simpa [hz] using hp

/-- The same preservation over any remaining list of documents. -/
theorem foldArticles_preserves (env : Env) (arts : List Article) (st : ExportSt)
    (u fn : Chars) (h : lookupDl st.downloaded u = some fn) :
    lookupDl (arts.foldl (processArticle env) st).downloaded u = some fn ∧
    (arts.foldl (processArticle env) st).fetchTrace.count u = st.fetchTrace.count u := by
  induction arts generalizing st with
  | nil => exact ⟨h, rfl⟩
  | cons a rest ih =>
    have hstep := processArticle_preserves env st a u fn h
    have := ih (processArticle env st a) hstep.1
    simpa using ⟨this.1, this.2.trans hstep.2⟩

/-- Every ImageInfo the scanner loop adds comes from a match of the list
it walks, its placeholder indexed by that match's position. -/
theorem extractImagesLoop_mem (ms : List (Chars × Chars)) (i : Nat) (md : Chars)
    (seen : List Chars) (infos : List ImageInfo) :
    ∀ inf ∈ (extractImagesLoop ms i (md, seen, infos)).2.2,
      inf ∈ infos ∨ ∃ j, ms.get? j = some (inf.alt, inf.originalURL) ∧
        inf.placeholder = placeholderFor (i + j) := by
  induction ms generalizing i md seen infos with
  | nil =>
    intro inf hm
    exact Or.inl hm
  | cons m rest ih =>
    obtain ⟨alt, url⟩ := m
    intro inf hm
    have lift : (inf ∈ infos ∨ ∃ j, rest.get? j = some (inf.alt, inf.originalURL) ∧
        inf.placeholder = placeholderFor (i + 1 + j)) →
        inf ∈ infos ∨ ∃ j, ((alt, url) :: rest).get? j = some (inf.alt, inf.originalURL) ∧
          inf.placeholder = placeholderFor (i + j) := by
      rintro (hin | ⟨j, hj, hp⟩)
      · exact Or.inl hin
      · exact Or.inr ⟨j + 1, by simpa using hj, by rw [hp]; congr 1; omega⟩
    by_cases h1 : startsWith url (strChars "./") || startsWith url (strChars "../")
    · rw [extractImagesLoop, if_pos h1] at hm
      exact lift (ih (i + 1) md seen infos inf hm)
    · rw [extractImagesLoop, if_neg h1] at hm
      set typ := if startsWith url (strChars "/uploads/") then strChars "local"
        else if startsWith url (strChars "http://") || startsWith url (strChars "https://") then
          strChars "remote"
        else [] with htyp
      by_cases h2 : typ.isEmpty
      · rw [if_pos h2] at hm
        exact lift (ih (i + 1) md seen infos inf hm)
      · rw [if_neg h2] at hm
        by_cases h3 : url ∈ seen
        · rw [if_pos h3] at hm
          exact lift (ih (i + 1) md seen infos inf hm)
        · rw [if_neg h3] at hm
          rcases ih (i + 1) (replaceImageLinks url (placeholderFor i) md) (url :: seen)
              (infos ++ [⟨alt, url, typ, placeholderFor i⟩]) inf hm with hin | ⟨j, hj, hp⟩
          · rcases List.mem_append.mp hin with hold | hnew
            · exact Or.inl hold
            · have : inf = ⟨alt, url, typ, placeholderFor i⟩ := by simpa using hnew
              subst this
              exact Or.inr ⟨0, by simp, by simp⟩
          · exact Or.inr ⟨j + 1, by simpa using hj, by rw [hp]; congr 1; omega⟩

/-- The scanner loop keeps the collected original URLs free of
duplicates, given that everything collected so far is recorded in seen. -/
theorem extractImagesLoop_nodup (ms : List (Chars × Chars)) (i : Nat) (md : Chars)
    (seen : List Chars) (infos : List ImageInfo)
    (h1 : (infos.map ImageInfo.originalURL).Nodup)
    (h2 : ∀ inf ∈ infos, inf.originalURL ∈ seen) :
    ((extractImagesLoop ms i (md, seen, infos)).2.2.map ImageInfo.originalURL).Nodup := by
  induction ms generalizing i md seen infos with
  | nil => simpa [extractImagesLoop] using h1
  | cons m rest ih =>
    obtain ⟨alt, url⟩ := m
    by_cases hc1 : startsWith url (strChars "./") || startsWith url (strChars "../")
    · rw [extractImagesLoop, if_pos hc1]
      exact ih (i + 1) md seen infos h1 h2
    · rw [extractImagesLoop, if_neg hc1]
      set typ := if startsWith url (strChars "/uploads/") then strChars "local"
        else if startsWith url (strChars "http://") || startsWith url (strChars "https://") then
          strChars "remote"
        else [] with htyp
      by_cases hc2 : typ.isEmpty
      · rw [if_pos hc2]
        exact ih (i + 1) md seen infos h1 h2
      · rw [if_neg hc2]
        by_cases hc3 : url ∈ seen
        · rw [if_pos hc3]
          exact ih (i + 1) md seen infos h1 h2
        · rw [if_neg hc3]
          refine ih (i + 1) _ (url :: seen) _ ?_ ?_
          · have hnot : url ∉ infos.map ImageInfo.originalURL := by
              intro hmem
              rcases List.mem_map.mp hmem with ⟨inf, hin, he⟩
              exact hc3 (he ▸ h2 inf hin)
            have hmap : (infos ++ [(⟨alt, url, typ, placeholderFor i⟩ : ImageInfo)]).map
                  ImageInfo.originalURL
                = infos.map ImageInfo.originalURL ++ [url] := by simp
            rw [hmap]
            refine List.Nodup.append h1 (List.nodup_singleton _) ?_
            intro x hx hy
            have hxe : x = url := by simpa using hy
            subst hxe
            exact hnot hx
          · intro inf hin
            rcases List.mem_append.mp hin with hold | hnew
            · exact List.mem_cons_of_mem _ (h2 inf hold)
            · have : inf = ⟨alt, url, typ, placeholderFor i⟩ := by simpa using hnew
              subst this
              exact List.mem_cons_self _ _

/-- extractImages never returns two ImageInfo entries for one URL. -/
theorem extractImages_urls_nodup (md : Chars) :
    (((extractImages md).2).map ImageInfo.originalURL).Nodup :=
  extractImagesLoop_nodup (scanMatches md) 0 md [] [] (by simp) (by simp)

/-- Every ImageInfo of extractImages records the alt and target of the
match (in the scan-order match list) whose index names its placeholder. -/
theorem extractImages_placeholder_indexed (md : Chars) :
    ∀ inf ∈ (extractImages md).2, ∃ j,
      (scanMatches md).get? j = some (inf.alt, inf.originalURL) ∧
        inf.placeholder = placeholderFor j := by
  intro inf hm
  rcases extractImagesLoop_mem (scanMatches md) 0 md [] [] inf hm with hin | ⟨j, hj, hp⟩
  · exact absurd hin (List.not_mem_nil _)
  · exact ⟨j, hj, by simpa using hp⟩

/-- finishUpload reports exactly the attempts it is handed. -/
theorem finishUpload_attempts (env : NormEnv) (uidx : Nat) (url : Chars) (data : List Nat)
    (ct : Chars) (attempts : List Chars) :
    (finishUpload env uidx url data ct attempts).2.2 = attempts := by
  unfold finishUpload
  dsimp only
  split <;> rfl

/-- The normalizer's single fallback never makes more than two requests
(contrast with the export-path downloadImage, claim C4). -/
theorem downloadAndUploadImage_attempts_le_two (env : NormEnv) (uidx : Nat) (url : Chars) :
    (downloadAndUploadImage env uidx url).2.2.length ≤ 2 := by
  unfold downloadAndUploadImage
  split
  · split
    · split
      · simp
      · rw [finishUpload_attempts]
        simp
    · simp
  · rw [finishUpload_attempts]
    simp

/-- Processing a one-element match list whose target fails at transport
level on a non-hostile, non-skipped URL leaves the content untouched and
records exactly that one fetch. -/
theorem normLoop_single_transport_fail (env : NormEnv) (uidx : Nat)
    (alt url m content : Chars) (trace : List Chars)
    (h : env.httpDo url = .transportErr m)
    (hskip : normSkip url = false) (hhost : hostileHost url = false) :
    normLoop env [(alt, url)] (content, uidx, trace) = (content, uidx, trace ++ [url]) := by
  unfold normLoop
  rw [hskip]
  simp only [Bool.false_eq_true, if_false]
  unfold downloadAndUploadImage tryDownload
  rw [h]
  dsimp only
  rw [hhost]
  simp only [Bool.false_eq_true, if_false]
  unfold normLoop
  rfl

/-- A match list all of whose targets the normalizer recognizes as
already normalized is traversed without any fetch, rewrite or state
change. -/
theorem normLoop_skip_all (env : NormEnv) (ms : List (Chars × Chars))
    (st : Chars × Nat × List Chars) (h : ∀ m ∈ ms, normSkip m.2 = true) :
    normLoop env ms st = st := by
  induction ms generalizing st with
  | nil => rfl
  | cons m rest ih =>
    obtain ⟨alt, url⟩ := m
    obtain ⟨content, uidx, trace⟩ := st
    have hm : normSkip url = true := h (alt, url) (List.mem_cons_self _ _)
    rw [normLoop, hm]
    simp only [if_true]
    exact ih _ (fun m hmem => h m (List.mem_cons_of_mem _ hmem))

/-- When every match target is either recognized as normalized or fails
in downloadAndUploadImage at every uuid index, the loop returns the
content unchanged. -/
theorem normLoop_no_success_content (env : NormEnv) (ms : List (Chars × Chars))
    (content : Chars) (uidx : Nat) (trace : List Chars)
    (h : ∀ m ∈ ms, normSkip m.2 = true ∨
      ∀ i, ∃ e, (downloadAndUploadImage env i m.2).1 = Except.error e) :
    (normLoop env ms (content, uidx, trace)).1 = content := by
  induction ms generalizing content uidx trace with
  | nil => rfl
  | cons m rest ih =>
    obtain ⟨alt, url⟩ := m
    have hrest : ∀ m ∈ rest, normSkip m.2 = true ∨
        ∀ i, ∃ e, (downloadAndUploadImage env i m.2).1 = Except.error e :=
      fun m hmem => h m (List.mem_cons_of_mem _ hmem)
    by_cases hsk : normSkip url = true
    · rw [normLoop, hsk]
      simp only [if_true]
      exact ih _ _ _ hrest
    · rcases h (alt, url) (List.mem_cons_self _ _) with hs | hf
      · exact absurd hs hsk
      · obtain ⟨e, he⟩ := hf uidx
        rw [normLoop]
        rw [show normSkip url = false from Bool.eq_false_iff.mpr hsk]
        simp only [Bool.false_eq_true, if_false]
        rw [he]
        exact ih _ _ _ hrest

/-! ## More concrete fixtures -/

/-- envOK with the archive write of the fetched asset entry failing. -/
def envZipFail : Env :=
  { envOK with zipFail := fun n => n = strChars "images/x.png" }

/-- A hostile-host URL (matching the cdn.nlark.com test). -/
def urlY : Chars := strChars "https://cdn.nlark.com/x.png"

/-- artRemote with the hostile-host link as its body. -/
def artY : Article :=
  { artRemote with contentMarkdown := strChars "![a](https://cdn.nlark.com/x.png)" }

/-- Environment of the C2 scenario: the primary fetch of urlY returns a
non-success status, the proxied fetch would succeed. -/
def envC2 : Env :=
  { httpDo := fun u =>
      if u = urlY then .ok 403 [] []
      else if u = proxyBase ++ urlY then .ok 200 (strChars "image/png") [9]
      else .transportErr (strChars "e"),
    readFile := fun _ => .error [],
    zipFail := fun _ => false,
    nowNano := 0, fuel := 8 }

/-- A body that already contains the text of the scanner's first
placeholder token. -/
def bodyC5 : Chars := strChars "__IMG_PLACEHOLDER_0__ ![a](https://h/x.png)"

/-- A body with the same remote URL twice under different alt texts. -/
def bodyC5b : Chars := strChars "![a](https://h/x.png) ![b](https://h/x.png)"

/-- An already-normalized body in the sense of the spec: one relative
bundle-path link. -/
def bodyC6 : Chars := strChars "![a](./images/x.png)"

/-- Normalizer environment whose every request fails at transport level
(a relative path has no protocol scheme, so client.Do fails on it). -/
def nenvF : NormEnv :=
  { httpDo := fun _ => .transportErr (strChars "unsupported protocol scheme"),
    uploadBytes := fun _ _ => .error [],
    datePath := strChars "2025/10/11",
    uuid := fun i => strChars "u" ++ natChars i }

/-- Normalizer environment of the idempotence counterexample: both
remote fetches succeed; the durable-storage upload rejects exactly the
filename built from the second uuid of a run and accepts every other,
always returning a durable (aliyuncs.com) URL on success. -/
def envC7 : NormEnv :=
  { httpDo := fun u =>
      if u = strChars "http://u/a.png" then .ok 200 (strChars "image/png") [1]
      else if u = strChars "http://v/b.png" then .ok 200 (strChars "image/png") [2]
      else .transportErr (strChars "e"),
    uploadBytes := fun _ fn =>
      if fn = strChars "articles/d/u1.png" then .error (strChars "oss rejected")
      else .ok (strChars "https://o.aliyuncs.com/" ++ fn),
    datePath := strChars "d",
    uuid := fun i => strChars "u" ++ natChars i }

/-- Two-link body for the idempotence counterexample. -/
def bodyC7x : Chars := strChars "![a](http://u/a.png) ![b](http://v/b.png)"

/-- Normalizer environment where the single remote fetch succeeds and
every upload lands on durable storage. -/
def nenvS : NormEnv :=
  { httpDo := fun u =>
      if u = urlH then .ok 200 (strChars "image/png") [5] else .transportErr (strChars "e"),
    uploadBytes := fun _ fn =>
      .ok (strChars "https://leaf.oss-cn-hangzhou.aliyuncs.com/" ++ fn),
    datePath := strChars "d",
    uuid := fun i => strChars "u" ++ natChars i }

/-- One-link body for the idempotence demonstration. -/
def bodyC7 : Chars := strChars "pre ![a](https://h/x.png) post"

/-- Two distinct URLs sharing the last path segment img.png (one behind a
query string). -/
def urlA : Chars := strChars "https://a.com/img.png?x=1"

/-- See urlA. -/
def urlB : Chars := strChars "https://b.org/img.png"

/-- Environment serving different bytes for urlA and urlB. -/
def envC10 : Env :=
  { httpDo := fun u =>
      if u = urlA then .ok 200 (strChars "image/png") [1]
      else if u = urlB then .ok 200 (strChars "image/png") [2]
      else .transportErr (strChars "e"),
    readFile := fun _ => .error [],
    zipFail := fun _ => false,
    nowNano := 0, fuel := 8 }

/-- Article whose body links both urlA and urlB. -/
def artC10 : Article :=
  { artRemote with
    contentMarkdown := strChars "![a](https://a.com/img.png?x=1)![b](https://b.org/img.png)" }

/-! ## Claim theorems -/

/-- Claim C1, code bug exhibited: when the single image fetch of a
document succeeds but the archive write of the asset entry fails,
ExportToZip leaves the scanner's placeholder token dangling in the
exported markdown entry — the loop skips both the substitution and the
dedup-map update on an archive write failure, so the rewritten body does
contain a placeholder token introduced by the scanner, contrary to the
claimed invariant. -/
theorem C1_zip_write_failure_leaves_placeholder :
    (extractImages (generateMarkdownWithFrontMatter artRemote)).2.map ImageInfo.placeholder
      = [placeholderFor 0] ∧
    (ExportToZip envZipFail [artRemote]).entries.map ZipEntry.name = [strChars "1-t.md"] ∧
    containsSub ((ExportToZip envZipFail [artRemote]).entries.headD ⟨[], []⟩).data
      (charsBytes (placeholderFor 0)) = true := by decide

/-- Claim C2, counterexample: primary fetch of the hostile-host URL
returns HTTP 403 and the proxy would answer 200, yet downloadImage makes
exactly one attempt, returns the status error without consulting the
proxy, and the exported body keeps the original URL with no asset under
the images path. -/
theorem C2_counterexample :
    (downloadImage envC2 envC2.fuel urlY).2 = [urlY] ∧
    (downloadImage envC2 envC2.fuel urlY).1 =
      .error (strChars "download failed: HTTP status") ∧
    (ExportToZip envC2 [artY]).entries.map ZipEntry.name = [strChars "1-t.md"] ∧
    containsSub ((ExportToZip envC2 [artY]).entries.headD ⟨[], []⟩).data
      (charsBytes (imgPattern (strChars "a") urlY)) = true ∧
    containsSub ((ExportToZip envC2 [artY]).entries.headD ⟨[], []⟩).data
      (charsBytes (strChars "./images/")) = false := by decide

/-- Claim C2 as amended: the export-path fetcher consults the proxy only
when the primary retrieval fails with a transport error; a non-success
HTTP status is returned as an error after the single primary attempt,
with no proxy retry. -/
theorem C2_amended (env : Env) (fuel : Nat) (url : Chars) :
    (∀ s ct b, env.httpDo url = .ok s ct b → s ≠ 200 →
      downloadImage env (fuel + 1) url =
        (.error (strChars "download failed: HTTP status"), [url])) ∧
    (∀ m, env.httpDo url = .transportErr m → hostileHost url = true →
      downloadImage env (fuel + 1) url =
        ((downloadImage env fuel (proxyBase ++ url)).1,
          url :: (downloadImage env fuel (proxyBase ++ url)).2)) := by
  constructor
  · intro s ct b hdo hs
    simp [downloadImage, hdo, hs]
  · intro m hdo hh
    simp [downloadImage, hdo, hh]

/-- Witness for C2_amended at the concrete scenario environments. -/
theorem C2_amended_witness :
    downloadImage envC2 8 urlY =
      (.error (strChars "download failed: HTTP status"), [urlY]) ∧
    downloadImage envT 2 urlY =
      ((downloadImage envT 1 (proxyBase ++ urlY)).1,
        urlY :: (downloadImage envT 1 (proxyBase ++ urlY)).2) :=
  ⟨(C2_amended envC2 7 urlY).1 403 [] [] (by decide) (by decide),
    (C2_amended envT 1 urlY).2 (strChars "connection refused") (by decide) (by decide)⟩

/-- Claim C3, counterexample: the same URL in two documents of one batch
is fetched twice when the first fetch fails, because the dedup map is
populated only on success — refuting fetch-at-most-once per run. -/
theorem C3_counterexample :
    (ExportToZip envT [artRemote, artRemote]).fetchTrace = [urlH, urlH] := by decide

/-- Claim C3 as amended: within one document a URL is fetched at most
once (the scanner never emits duplicate ImageInfo entries); the dedup map
is consulted before any fetch, and once a URL is recorded (which happens
only after a successful fetch and archive write) no later document
fetches it again and its filename stays fixed; concretely, a successful
first fetch makes the second document skip the fetch and both exported
bodies reference the same archive asset filename. -/
theorem C3_amended :
    (∀ md : Chars, ((extractImages md).2.map ImageInfo.originalURL).Nodup) ∧
    (∀ (env : Env) (arts : List Article) (st : ExportSt) (u fn : Chars),
      lookupDl st.downloaded u = some fn →
        (arts.foldl (processArticle env) st).fetchTrace.count u = st.fetchTrace.count u ∧
        lookupDl (arts.foldl (processArticle env) st).downloaded u = some fn) ∧
    (ExportToZip envOK [artRemote, artRemote]).fetchTrace = [urlH] ∧
    (ExportToZip envOK [artRemote, artRemote]).entries.map ZipEntry.name =
      [strChars "images/x.png", strChars "1-t.md", strChars "1-t.md"] ∧
    containsSub (((ExportToZip envOK [artRemote, artRemote]).entries.getD 1 ⟨[], []⟩).data)
      (charsBytes (imgPattern (strChars "a") (strChars "./images/x.png"))) = true ∧
    containsSub (((ExportToZip envOK [artRemote, artRemote]).entries.getD 2 ⟨[], []⟩).data)
      (charsBytes (imgPattern (strChars "a") (strChars "./images/x.png"))) = true := by
  refine ⟨extractImages_urls_nodup, ?_, ?_, ?_, ?_, ?_⟩
  · intro env arts st u fn h
    exact ⟨(foldArticles_preserves env arts st u fn h).2,
      (foldArticles_preserves env arts st u fn h).1⟩
  all_goals decide

/-- Witness for C3_amended: with urlH pre-recorded in the dedup map,
exporting a document whose body references urlH performs no fetch of it
and keeps its filename. -/
theorem C3_amended_witness :
    lookupDl [(urlH, strChars "x.png")] urlH = some (strChars "x.png") ∧
    ([artRemote].foldl (processArticle envT)
        ⟨[], [(urlH, strChars "x.png")], []⟩).fetchTrace.count urlH = 0 ∧
    lookupDl ([artRemote].foldl (processArticle envT)
        ⟨[], [(urlH, strChars "x.png")], []⟩).downloaded urlH = some (strChars "x.png") := by
  have h := C3_amended.2.1 envT [artRemote] ⟨[], [(urlH, strChars "x.png")], []⟩
    urlH (strChars "x.png") (by decide)
  exact ⟨by decide, by simpa using h.1, h.2⟩

/-- Claim C4, code bug exhibited: on persistent transport failure for a
cdn.nlark.com URL the fallback re-enters downloadImage on the proxied URL
(which still contains cdn.nlark.com), so a third, fourth, ... attempt is
made — the attempt list grows with the whole available recursion budget
instead of stopping after two attempts. -/
theorem C4_proxy_reentry_unbounded :
    (downloadImage envT 4 urlY).2.length = 4 ∧
    (downloadImage envT 7 urlY).2.length = 7 ∧
    (downloadImage envT 4 urlY).2.getLastD [] =
      proxyBase ++ (proxyBase ++ (proxyBase ++ urlY)) ∧
    (downloadImage envT 4 urlY).1 = .error (strChars "recursion budget exhausted") := by decide

/-- Claim C5, counterexample: the placeholder tokens are fixed text of
the form IMG PLACEHOLDER with underscores, so a body that already
contains that text collides with the token the scanner assigns — after
scanning, the marked body holds two copies of the token of which only one
was introduced by the scanner, and substitution rewrites both. -/
theorem C5_counterexample :
    (extractImages bodyC5).2.map ImageInfo.placeholder = [placeholderFor 0] ∧
    containsSub bodyC5 (placeholderFor 0) = true ∧
    (extractImages bodyC5).1 = placeholderFor 0 ++ strChars " " ++ placeholderFor 0 ∧
    replaceAllSub (extractImages bodyC5).1 (placeholderFor 0) (strChars "REPL") =
      strChars "REPL REPL" := by decide

/-- Claim C5 as amended: for every body the scanner emits exactly one
ImageReference per distinct eligible URL, each placeholder being the
token indexed by the position (in scan order) of the match that created
it; the token is a fixed textual pattern that can collide with document
content already containing it.  Concretely, a URL occurring twice gets
one ImageInfo, both occurrences are rewritten to the same token and both
resolve to the same final form. -/
theorem C5_amended :
    (∀ md : Chars, ((extractImages md).2.map ImageInfo.originalURL).Nodup) ∧
    (∀ md : Chars, ∀ inf ∈ (extractImages md).2, ∃ j,
      (scanMatches md).get? j = some (inf.alt, inf.originalURL) ∧
        inf.placeholder = placeholderFor j) ∧
    (extractImages bodyC5b).2 =
      [⟨strChars "a", urlH, strChars "remote", placeholderFor 0⟩] ∧
    (extractImages bodyC5b).1 = placeholderFor 0 ++ strChars " " ++ placeholderFor 0 ∧
    replaceAllSub (extractImages bodyC5b).1 (placeholderFor 0)
        (imgPattern (strChars "a") (strChars "./images/x.png")) =
      imgPattern (strChars "a") (strChars "./images/x.png") ++ strChars " " ++
        imgPattern (strChars "a") (strChars "./images/x.png") := by
  refine ⟨extractImages_urls_nodup, extractImages_placeholder_indexed, ?_, ?_, ?_⟩
  all_goals decide

/-- Claim C6, counterexample: a body holding only the already-normalized
link with the relative images path is returned byte-identical, but one
fetch attempt is made — the normalizer's skip list (uploads prefix,
oss-cn-, aliyuncs.com) does not recognize relative bundle paths, so the
reference is handed to downloadAndUploadImage (whose request then fails,
leaving the link unmodified). -/
theorem C6_counterexample :
    (ProcessMarkdownImages nenvF bodyC6).content = bodyC6 ∧
    (ProcessMarkdownImages nenvF bodyC6).fetchTrace = [strChars "./images/x.png"] := by decide

/-- Claim C6 as amended: on the already-normalized body the normalizer
returns the input unchanged with a nil error (so the caller observes
changed = false), but it performs exactly one (failing) fetch attempt for
the relative URL rather than zero. -/
theorem C6_amended (env : NormEnv) (m : Chars)
    (h : env.httpDo (strChars "./images/x.png") = .transportErr m) :
    (ProcessMarkdownImages env bodyC6).content = bodyC6 ∧
    (ProcessMarkdownImages env bodyC6).err = none ∧
    (ProcessMarkdownImages env bodyC6).fetchTrace = [strChars "./images/x.png"] := by
  have hs : scanMatches bodyC6 = [(strChars "a", strChars "./images/x.png")] := by decide
  have hn := normLoop_single_transport_fail env 0 (strChars "a") (strChars "./images/x.png")
    m bodyC6 [] h (by decide) (by decide)
  unfold ProcessMarkdownImages
  rw [hs]
  simp [hn]

/-- Witness for C6_amended at the concrete all-transport-failure
environment. -/
theorem C6_amended_witness :
    nenvF.httpDo (strChars "./images/x.png") =
      .transportErr (strChars "unsupported protocol scheme") ∧
    (ProcessMarkdownImages nenvF bodyC6).content = bodyC6 ∧
    (ProcessMarkdownImages nenvF bodyC6).err = none ∧
    (ProcessMarkdownImages nenvF bodyC6).fetchTrace = [strChars "./images/x.png"] :=
  ⟨by decide, C6_amended nenvF (strChars "unsupported protocol scheme") (by decide)⟩

/-- Claim C7, counterexample: idempotence fails for a body whose second
link failed during the first run.  In the first run the second upload
(filename drawn from the second uuid of that run) is rejected, so its
link keeps the original URL; the second run retries that link, and since
its uuid indices restart, the retried upload uses the first filename of
the run and succeeds — the second run rewrites the link and returns a
changed body.  The environment is one fixed deterministic function and
every successful upload returns a durable-storage URL. -/
theorem C7_counterexample :
    (ProcessMarkdownImages envC7 bodyC7x).content =
      strChars "![a](https://o.aliyuncs.com/articles/d/u0.png) ![b](http://v/b.png)" ∧
    (ProcessMarkdownImages envC7
        ((ProcessMarkdownImages envC7 bodyC7x).content)).content =
      strChars
        "![a](https://o.aliyuncs.com/articles/d/u0.png) ![b](https://o.aliyuncs.com/articles/d/u0.png)" ∧
    (ProcessMarkdownImages envC7 ((ProcessMarkdownImages envC7 bodyC7x).content)).content ≠
      (ProcessMarkdownImages envC7 bodyC7x).content := by decide

/-- Claim C7 as amended: every link the first run rewrote points at
durable storage and is skipped entirely by the second run (a match list
of recognized links is traversed with no fetch, rewrite or state
change), and the second run leaves the body unchanged whenever each of
its matches is recognized or keeps failing; concretely, after a first run
that rewrote its only link, a second run returns the body unchanged.  A
link whose processing failed in the first run is retried, and that retry
can succeed and change the body (see the counterexample), so unchanged
output on the second run is not guaranteed for every body. -/
theorem C7_amended :
    (∀ (env : NormEnv) (ms : List (Chars × Chars)) (st : Chars × Nat × List Chars),
      (∀ m ∈ ms, normSkip m.2 = true) → normLoop env ms st = st) ∧
    (∀ (env : NormEnv) (ms : List (Chars × Chars)) (content : Chars) (uidx : Nat)
        (trace : List Chars),
      (∀ m ∈ ms, normSkip m.2 = true ∨
        ∀ i, ∃ e, (downloadAndUploadImage env i m.2).1 = Except.error e) →
      (normLoop env ms (content, uidx, trace)).1 = content) ∧
    (ProcessMarkdownImages nenvS ((ProcessMarkdownImages nenvS bodyC7).content)).content =
      (ProcessMarkdownImages nenvS bodyC7).content ∧
    (ProcessMarkdownImages nenvS bodyC7).content ≠ bodyC7 :=
  ⟨normLoop_skip_all, normLoop_no_success_content, by decide, by decide⟩

/-- Witness for C7_amended: a recognized link is skipped with no state
change, and an always-failing link leaves the content untouched. -/
theorem C7_amended_witness :
    normLoop nenvF [(strChars "a", strChars "/uploads/i.png")]
      (strChars "body", 0, []) = (strChars "body", 0, []) ∧
    (normLoop nenvF [(strChars "a", strChars "https://q/x.png")]
      (strChars "body", 0, [])).1 = strChars "body" :=
  ⟨C7_amended.1 nenvF _ _ (by decide),
    C7_amended.2.1 nenvF _ _ _ _ (by
      intro m hm
      have hm2 : m = (strChars "a", strChars "https://q/x.png") := by simpa using hm
      subst hm2
      exact Or.inr (fun i => ⟨_, rfl⟩))⟩

/-- Claim C8: a body in which the scanner finds no image-link match is
returned unchanged with an empty reference list. -/
theorem C8_no_links_identity (md : Chars) (h : scanMatches md = []) :
    extractImages md = (md, []) := by
  unfold extractImages
  rw [h]
  rfl

/-- Witness for C8 on a concrete link-free body. -/
theorem C8_witness :
    scanMatches (strChars "plain text with no image links") = [] ∧
    extractImages (strChars "plain text with no image links") =
      (strChars "plain text with no image links", []) :=
  ⟨by decide, C8_no_links_identity _ (by decide)⟩

/-- Claim C9: ProcessMarkdownImages returns a nil error for every input
and every environment — all per-image failures are absorbed by the loop,
and both returns of the function carry nil. -/
theorem C9_err_always_none (env : NormEnv) (content : Chars) :
    (ProcessMarkdownImages env content).err = none := by
  unfold ProcessMarkdownImages
  dsimp only
  split <;> rfl

/-- Claim C10: extractFilename is not injective — urlA and urlB are
distinct URLs resolving to the same filename, and one export run adds two
archive entries under the same images path holding different bytes. -/
theorem C10_filename_collision :
    urlA ≠ urlB ∧
    extractFilename envC10 urlA (strChars "image/png") = strChars "img.png" ∧
    extractFilename envC10 urlB (strChars "image/png") = strChars "img.png" ∧
    (ExportToZip envC10 [artC10]).entries.map ZipEntry.name =
      [strChars "images/img.png", strChars "images/img.png", strChars "1-t.md"] ∧
    ((ExportToZip envC10 [artC10]).entries.getD 0 ⟨[], []⟩).data = [1] ∧
    ((ExportToZip envC10 [artC10]).entries.getD 1 ⟨[], []⟩).data = [2] := by decide

end Leaf
